import Mathlib

/- Verification of the RAG-Support-System core against its design document.

   The Python sources are embedded shallowly: Python floats are modelled by
   exact rational (and, where square roots occur, real) arithmetic, lists by
   Lean lists, dictionaries with a fixed key set by structures, and fallible
   calls by Except values.  Impure details that no statement here depends on
   (log calls, wall-clock timestamps, md5-derived chunk ids) are omitted. -/

namespace RAGSupport

/-- Arithmetic mean of a list of rationals, as computed by
 numpy mean and by the expression sum(similarities) / len(similarities)
 in helpers.py line 44; 0 by convention on the empty list (all call sites
 guard against the empty case first). -/
def listMean (l : List ℚ) : ℚ := l.sum / l.length

/-- Population variance, the quantity computed in helpers.py lines 89-90 and
 inside numpy std: mean of the squared deviations from the mean. -/
def listVariance (l : List ℚ) : ℚ :=
  ((l.map (fun s => (s - listMean l) ^ 2)).sum) / l.length

/-- Population standard deviation, numpy std (rag_engine.py line 345) and
 variance ** 0.5 (helpers.py line 91). -/
noncomputable def listStd (l : List ℚ) : ℝ := Real.sqrt ((listVariance l : ℝ))

namespace RAGEngine

/-- Embeds RAGEngine._calculate_result_consistency (rag_engine.py lines
 339-351): 1.0 for fewer than two scores, otherwise
 max(0, 1 - std_dev / 0.3).  The function is applied by the engine to the
 similarity values of the results; only those values are read, so the
 embedding takes the score list directly. -/
noncomputable def calculate_result_consistency (scores : List ℚ) : ℝ :=
  if scores.length < 2 then 1
  else max 0 (1 - listStd scores / (0.3 : ℝ))

/-- Weighted combination and clamping steps of RAGEngine._calculate_confidence
 (rag_engine.py lines 329-337): the 0.6 / 0.25 / 0.15 weights are the local
 constants of that method. -/
noncomputable def weightedConfidence (avg top cons : ℝ) : ℝ :=
  max 0 (min 1 (avg * 0.6 + top * 0.25 + cons * 0.15))

/-- Embeds RAGEngine._calculate_confidence (rag_engine.py lines 303-337).
 Factor 1 is the mean similarity over all results, factor 2 the first
 similarity (the code falls back to 0.0 for an empty list, as headI does),
 factor 3 the consistency of search_results[:3]. -/
noncomputable def calculate_confidence (sims : List ℚ) : ℝ :=
  if sims = [] then 0
  else weightedConfidence ((listMean sims : ℝ)) ((sims.headI : ℝ))
    (calculate_result_consistency (sims.take 3))

end RAGEngine

/-- Written from the words of the spec (section 4.4) and claim C1:
 avgSimilarity is the mean similarity over all results. -/
def specAvgSimilarity (sims : List ℚ) : ℚ := sims.sum / sims.length

/-- Written from the words of the spec: topSimilarity is the similarity of the
 first result. -/
def specTopSimilarity (sims : List ℚ) : ℚ := sims.headI

/-- Written from the words of the spec: consistency is
 max(0, 1 - stddev(similarities of the top min(3,n) results) / 0.3), forced
 to 1.0 when fewer than 2 results are available. -/
noncomputable def specConsistency (sims : List ℚ) : ℝ :=
  if sims.length < 2 then 1
  else max 0 (1 - listStd (sims.take (min 3 sims.length)) / (0.3 : ℝ))

/-- Written from the words of the spec: score is
 clamp(avg * w.similarity + top * w.topResult + consistency * w.consistency,
 0, 1) at the default weights 0.6 / 0.25 / 0.15. -/
noncomputable def specScore (sims : List ℚ) : ℝ :=
  max 0 (min 1 ((specAvgSimilarity sims : ℝ) * 0.6 +
    (specTopSimilarity sims : ℝ) * 0.25 + specConsistency sims * 0.15))

/-- Escalation flag of the engine response: confidence strictly below the low
 threshold (rag_engine.py line 212, helpers.py line 335). -/
def shouldEscalateFlag (confidence low : ℝ) : Prop := confidence < low

/-- Auto-response flag of the engine response: confidence at or above the high
 threshold (rag_engine.py line 213, helpers.py line 336). -/
def autoResponseFlag (confidence high : ℝ) : Prop := high ≤ confidence

/-- Residual routing case: neither flag is set, the response is left for human
 review. -/
def needsReviewFlag (confidence low high : ℝ) : Prop :=
  ¬ shouldEscalateFlag confidence low ∧ ¬ autoResponseFlag confidence high

/-- Nearest integer with ties to even, the rounding mode of the Python
 round builtin; used to embed round(x, 3). -/
def roundHalfEven (q : ℚ) : ℤ :=
  if q - ⌊q⌋ < 1/2 then ⌊q⌋
  else if (1/2 : ℚ) < q - ⌊q⌋ then ⌊q⌋ + 1
  else if ⌊q⌋ % 2 = 0 then ⌊q⌋ else ⌊q⌋ + 1

/-- Embeds round(x, 3): round to three decimal places, ties to even. -/
def round3 (q : ℚ) : ℚ := (roundHalfEven (q * 1000) : ℚ) / 1000

/-- Real-valued variant of roundHalfEven, for the confidence value (which
 carries a square root in general). -/
noncomputable def roundHalfEvenR (x : ℝ) : ℤ :=
  if x - ⌊x⌋ < 1/2 then ⌊x⌋
  else if (1/2 : ℝ) < x - ⌊x⌋ then ⌊x⌋ + 1
  else if ⌊x⌋ % 2 = 0 then ⌊x⌋ else ⌊x⌋ + 1

/-- Real-valued variant of round3. -/
noncomputable def round3R (x : ℝ) : ℝ := (roundHalfEvenR (x * 1000) : ℝ) / 1000

/-- Metadata of one retrieved chunk, as read by the source-attribution code:
 the source document name, the inferred document type, and the chunk id
 standing in for the remaining identifying metadata keys. -/
structure ResultMeta where
  source : String
  document_type : String
  chunk_id : String
deriving DecidableEq, Repr

/-- One search result as returned by PineconeVectorStore.similarity_search
 (vector_store.py lines 149-193): id, text, metadata and the cosine
 similarity score (the dict stores the same number under the keys score and
 similarity, embedded once here). -/
structure SearchResult where
  id : String
  text : String
  similarity : ℚ
  metadata : ResultMeta
deriving DecidableEq, Repr

/-- One entry of the source list built by RAGEngine._extract_sources
 (rag_engine.py lines 353-370). -/
structure SourceEntry where
  source : String
  document_type : String
  relevance_score : ℚ
deriving DecidableEq, Repr

/-- One entry of the source list built by helpers.format_sources
 (helpers.py lines 100-147), which additionally counts chunks. -/
structure SourceInfo where
  source : String
  document_type : String
  relevance_score : ℚ
  chunk_count : ℕ
deriving DecidableEq, Repr

namespace RAGEngine

/-- Embeds the loop of RAGEngine._extract_sources: walk the results in order,
 emit the first occurrence of each source with its rounded similarity, skip
 sources already seen. -/
def extract_sources : List SearchResult → List String → List SourceEntry
  | [], _ => []
  | r :: rest, seen =>
    if r.metadata.source ∈ seen then extract_sources rest seen
    else ⟨r.metadata.source, r.metadata.document_type, round3 r.similarity⟩ ::
      extract_sources rest (r.metadata.source :: seen)

end RAGEngine

namespace Helpers

/-- Embeds the inner counting loop of helpers.format_sources (lines 129-133):
 one for the current result plus one for every other result from the same
 source that is not equal (Python dict equality, here structural equality)
 to the current result. -/
def chunkCountOf (all : List SearchResult) (r : SearchResult) : ℕ :=
  1 + all.countP (fun o => decide (o.metadata.source = r.metadata.source ∧ o ≠ r))

/-- Embeds the outer loop of helpers.format_sources (lines 110-137): emit one
 entry per source not yet seen, with the rounded similarity of its first
 occurrence and the chunk count over the whole result list. -/
def formatSourcesLoop (all : List SearchResult) :
    List SearchResult → List String → List SourceInfo
  | [], _ => []
  | r :: rest, seen =>
    if r.metadata.source ∈ seen then formatSourcesLoop all rest seen
    else ⟨r.metadata.source, r.metadata.document_type, round3 r.similarity,
        chunkCountOf all r⟩ ::
      formatSourcesLoop all rest (r.metadata.source :: seen)

/-- Comparison used to embed sources.sort(key relevance_score, reverse), a
 stable descending sort. -/
def sourceDescBool (a b : SourceInfo) : Bool :=
  decide (b.relevance_score ≤ a.relevance_score)

/-- Embeds helpers.format_sources (lines 100-147): deduplicating loop followed
 by the stable descending sort on relevance_score. -/
def format_sources (results : List SearchResult) : List SourceInfo :=
  (formatSourcesLoop results results []).mergeSort sourceDescBool

end Helpers

/-- Response record assembled by RAGEngine.query and its two fallback
 constructors: the generated text, confidence, source list, the two routing
 flags, the retrieved chunk count, and the optional message and error
 fields (each present in only some of the three response shapes;
 processing_time and the debug echo of search_results are omitted as pure
 telemetry). -/
structure EngineResponse where
  response : String
  confidence : ℝ
  sources : List SourceEntry
  should_escalate : Prop
  auto_response : Prop
  retrieved_chunks : ℕ
  message : Option String
  error : Option String

namespace RAGEngine

/-- Placeholder answer of _create_no_results_response (rag_engine.py lines
 372-383); contractions of the original wording expanded. -/
def noResultsText : String :=
  "I do not have specific information to answer your question. Please contact our customer support team for personalized assistance."

/-- Message attached by _create_no_results_response. -/
def noResultsMessage : String := "No relevant information found in knowledge base"

/-- Placeholder answer of _create_error_response (rag_engine.py lines
 385-396); contractions expanded. -/
def errorText : String :=
  "I am experiencing technical difficulties and cannot process your request right now. Please try again later or contact customer support."

/-- Fallback answer returned from inside _generate_response when the
 generation call raises (rag_engine.py lines 287-289); contractions
 expanded. -/
def genFallbackText : String :=
  "I apologize, but I am unable to generate a response at this time due to a technical issue. Please contact our support team for assistance."

/-- Embeds _create_no_results_response: confidence 0.0, no sources, escalate,
 no auto response, zero chunks, explanatory message, no error field. -/
def create_no_results_response : EngineResponse :=
  ⟨noResultsText, 0, [], True, False, 0, some noResultsMessage, none⟩

/-- Embeds _create_error_response: confidence 0.0, no sources, escalate, no
 auto response, zero chunks, no message, the error string attached. -/
def create_error_response (error_message : String) : EngineResponse :=
  ⟨errorText, 0, [], True, False, 0, none, some error_message⟩

/-- Embeds _generate_response (rag_engine.py lines 265-289): the external
 completion call is a black box that either returns text or raises; a raise
 is caught inside the method and replaced by the apology fallback, so no
 exception escapes. -/
def generate_response (gen : Except String String) : String :=
  match gen with
  | Except.ok t => t
  | Except.error _ => genFallbackText

/-- Embeds PineconeVectorStore.similarity_search as seen by the caller: the
 external Pinecone query either yields the result list or raises, and a
 raise is caught inside the method, which then returns the empty list
 (vector_store.py lines 191-193). -/
def similarity_search (raw : Except String (List SearchResult)) :
    List SearchResult :=
  match raw with
  | Except.ok results => results
  | Except.error _ => []

/-- Embeds RAGEngine.query (rag_engine.py lines 172-240).  The three external
 collaborator calls are passed in as Except values: the embedding call
 (whose raise propagates to the catch-all of query and yields the error
 response), the raw Pinecone search (whose raise is swallowed inside
 similarity_search), and the generation call (whose raise is swallowed
 inside generate_response).  The question string is threaded through but,
 as in the code, never alters the outcome fields. -/
noncomputable def query (question : String) :
    Except String (List ℚ) → Except String (List SearchResult) →
      Except String String → ℝ → ℝ → EngineResponse
  | Except.error e, _, _, _, _ => create_error_response e
  | Except.ok _, searchRaw, gen, low, high =>
    let search_results := similarity_search searchRaw
    if search_results = [] then create_no_results_response
    else
      let confidence := calculate_confidence (search_results.map (fun r => r.similarity))
      ⟨generate_response gen, round3R confidence,
        extract_sources search_results [],
        shouldEscalateFlag confidence low,
        autoResponseFlag confidence high,
        search_results.length, none, none⟩

end RAGEngine

namespace Helpers

/-- Characters matched by the Python regex class backslash-s on ASCII input:
 space, tab, newline, carriage return, vertical tab, form feed (code
 points). -/
def pyWhitespace (c : Char) : Bool := [32, 9, 10, 13, 11, 12].contains c.toNat

/-- Characters removed by sanitize_query as potentially harmful (helpers.py
 line 168): the two angle brackets, the two braces, the two square brackets,
 the pipe, the backslash and the backtick, written as code points. -/
def harmfulChar (c : Char) : Bool :=
  [60, 62, 123, 125, 91, 93, 124, 92, 96].contains c.toNat

/-- Removal of leading and trailing whitespace, Python str.strip. -/
def stripWs (l : List Char) : List Char :=
  ((l.dropWhile pyWhitespace).reverse.dropWhile pyWhitespace).reverse

/-- Collapse of every maximal whitespace run to one single space, the effect
 of the substitution on line 165 of helpers.py. -/
def collapseRuns : List Char → List Char
  | [] => []
  | [c] => if pyWhitespace c then [' '] else [c]
  | c :: d :: rest =>
    if pyWhitespace c && pyWhitespace d then collapseRuns (d :: rest)
    else (if pyWhitespace c then ' ' else c) :: collapseRuns (d :: rest)

/-- Embeds the expression query[:500].rsplit(space, 1)[0] of helpers.py line
 173: everything before the last space when one occurs, the whole list
 otherwise. -/
def beforeLastSpace (l : List Char) : List Char :=
  if l.contains ' ' then
    ((l.reverse.dropWhile (fun c => !(c == ' '))).tail).reverse
  else l

/-- Cleaning steps of helpers.sanitize_query (helpers.py lines 164-168):
 whitespace stripped and collapsed, then the harmful characters removed. -/
def cleanedQuery (query : List Char) : List Char :=
  (collapseRuns (stripWs query)).filter (fun c => !(harmfulChar c))

/-- Embeds helpers.sanitize_query (helpers.py lines 150-182) on string input
 (the isinstance guard for non-string input is outside a typed embedding):
 empty input returns empty via the falsy guard; otherwise the query is
 cleaned, and a cleaned query longer than 500 characters is cut at 500,
 trimmed back to the last space, and given a three-dot ellipsis. -/
def sanitize_query (query : List Char) : List Char :=
  if query = [] then []
  else
    if 500 < (cleanedQuery query).length then
      beforeLastSpace ((cleanedQuery query).take 500) ++ ['.', '.', '.']
    else cleanedQuery query

end Helpers

namespace InMemoryVectorStore

/-- Fitted nearest-neighbour structure, the embedding of the sklearn
 NearestNeighbors object built by _reindex (rag-service/vector_store.py lines
 34-40): the n_neighbors parameter it was constructed with and the vectors it
 was fitted on. -/
structure NNIndex where
  n_neighbors : ℕ
  fitted : List (List ℚ)
deriving DecidableEq, Repr

/-- State of rag-service/vector_store.py InMemoryVectorStore: dimension,
 parallel text and metadata lists, the stored vectors (the initial None is
 identified with the empty list, which the code treats identically), and the
 optional fitted search structure.  Metadata dicts are modelled as opaque
 strings: the store never inspects them. -/
structure Store where
  dimension : ℕ
  texts : List String
  metadata : List String
  vectors : List (List ℚ)
  nn : Option NNIndex
deriving DecidableEq, Repr

/-- Embeds _reindex (lines 34-40): drop the structure when no vectors are
 stored, otherwise fit a fresh structure on all stored vectors with
 n_neighbors = min(5, count). -/
def reindex (s : Store) : Store :=
  if s.vectors.length = 0 then { s with nn := none }
  else { s with nn := some ⟨min 5 s.vectors.length, s.vectors⟩ }

/-- Embeds add (lines 17-32).  The numpy shape check (ndim 2, second dimension
 equal to the store dimension) is rendered as: some row has the wrong length
 (numpy arrays are rectangular, so a 2-d array has one shared row length).
 The single metadata argument is appended once per text, and _reindex runs at
 the end of every successful add. -/
def add (s : Store) (vectors : List (List ℚ)) (texts : List String)
    (metadata : String) : Except String Store :=
  if vectors.any (fun v => decide (v.length ≠ s.dimension)) then
    Except.error "Invalid vector shape for this store"
  else if vectors.length ≠ texts.length then
    Except.error "Number of vectors must match number of texts"
  else
    Except.ok (reindex { s with
      texts := s.texts ++ texts,
      metadata := s.metadata ++ texts.map (fun _ => metadata),
      vectors := s.vectors ++ vectors })

/-- Ascending-distance comparison for the neighbour ranking. -/
def distAscBool (a b : ℕ × ℚ) : Bool := decide (a.2 ≤ b.2)

/-- Models the external sklearn kneighbors call on a fitted structure: rank
 every fitted vector by its distance to the query under the metric (the
 cosine metric itself is the black-box argument dist) and keep the n nearest;
 sklearn leaves tie order unspecified, modelled here as index order via a
 stable sort. -/
def kneighbors (dist : List ℚ → List ℚ → ℚ) (nnm : NNIndex) (q : List ℚ)
    (n : ℕ) : List (ℕ × ℚ) :=
  ((nnm.fitted.enum.map (fun p => (p.1, dist q p.2))).mergeSort distAscBool).take n

/-- One search result dict of InMemoryVectorStore.search (lines 47-56). -/
structure SearchItem where
  text : String
  score : ℚ
  metadata : String
  index : ℕ
deriving DecidableEq, Repr

/-- Descending-score comparison embedding results.sort(key score, reverse). -/
def scoreDescBool (a b : SearchItem) : Bool := decide (b.score ≤ a.score)

/-- Embeds search (lines 42-58): empty when no structure is fitted; otherwise
 ask the fitted structure for the n = min(top_k, stored) nearest neighbours,
 build result records with score = 1 - distance, and sort them by score
 descending. -/
def search (dist : List ℚ → List ℚ → ℚ) (s : Store) (query_vector : List ℚ)
    (top_k : ℕ) : List SearchItem :=
  match s.nn with
  | none => []
  | some nnm =>
    let n := min top_k s.texts.length
    ((kneighbors dist nnm query_vector n).map (fun p =>
      ⟨s.texts.getD p.1 "", 1 - p.2, s.metadata.getD p.1 "", p.1⟩)).mergeSort
      scoreDescBool

/-- States reachable through add from a fresh store: the fitted structure is
 present exactly when vectors are stored, is fitted on exactly the stored
 vectors, and the parallel lists agree in length. -/
def Wf (s : Store) : Prop :=
  s.vectors.length = s.texts.length ∧
  match s.nn with
  | none => s.vectors = []
  | some nnm => nnm.fitted = s.vectors ∧ s.vectors ≠ []

end InMemoryVectorStore

namespace DocumentProcessor

/-- Models the argument validation of the external langchain
 RecursiveCharacterTextSplitter constructor called by
 DocumentProcessor.__init__ (document_processor.py lines 22-28) at engine
 construction: the library raises ValueError exactly when the overlap is
 strictly larger than the chunk size.  No other chunk-parameter validation
 exists in the repository; config.py RAGConfig (lines 86-116) validates only
 the confidence thresholds. -/
def textSplitterInit (chunk_size chunk_overlap : ℕ) : Except String Unit :=
  if chunk_size < chunk_overlap then
    Except.error "Got a larger chunk overlap than chunk size"
  else Except.ok ()

/-- Embeds DocumentProcessor.__init__ (lines 22-32): its only fallible step is
 the splitter construction. -/
def documentProcessorInit (chunk_size chunk_overlap : ℕ) : Except String Unit :=
  textSplitterInit chunk_size chunk_overlap

/-- One processed chunk of process_text_content: the stripped text with its
 metadata fields (the timestamp-derived chunk id and processing timestamp are
 impure and omitted; character_count is taken, as in the code, before the
 strip). -/
structure Chunk where
  text : String
  source : String
  document_type : String
  chunk_index : ℕ
  total_chunks : ℕ
  character_count : ℕ
deriving DecidableEq, Repr

/-- Embeds DocumentProcessor.process_text_content (document_processor.py lines
 133-186), parameterized by the external langchain split_text call: each
 produced chunk is stripped and wrapped with enumeration metadata. -/
def process_text_content (split_text : String → List String) (text : String)
    (source_name document_type : String) : List Chunk :=
  let chunks := split_text text
  chunks.enum.map (fun p =>
    ⟨(p.2).trim, source_name, document_type, p.1, chunks.length, (p.2).length⟩)

end DocumentProcessor

theorem take_min_eq {α : Type} (l : List α) (n : ℕ) :
    l.take (min n l.length) = l.take n := by
  rcases le_total n l.length with h | h
  · rw [min_eq_left h]
  · rw [min_eq_right h, List.take_length, List.take_of_length_le h]

theorem consistency_take_eq_spec (sims : List ℚ) :
    RAGEngine.calculate_result_consistency (sims.take 3) = specConsistency sims := by
  unfold RAGEngine.calculate_result_consistency specConsistency
  rw [List.length_take, take_min_eq]
  rcases lt_or_le sims.length 2 with h | h
  · rw [if_pos (by omega), if_pos h]
  · rw [if_neg (by omega), if_neg (by omega)]

/-- C1: for every non-empty list of similarity scores ordered descending, the
 confidence computed by RAGEngine._calculate_confidence equals the value the
 specification prescribes: clamp(avg·0.6 + top·0.25 + consistency·0.15, 0, 1)
 with the consistency factor taken over the top min(3, n) results and forced
 to 1.0 below 2 results. -/
theorem claim_C1 (sims : List ℚ) (hne : sims ≠ [])
    (hsorted : sims.Pairwise (fun a b => b ≤ a)) :
    RAGEngine.calculate_confidence sims = specScore sims := by
  unfold RAGEngine.calculate_confidence specScore RAGEngine.weightedConfidence
  rw [if_neg hne, consistency_take_eq_spec]
  rfl

theorem claim_C1_witness :
    RAGEngine.calculate_confidence [9/10, 7/10, 1/2] =
      specScore [9/10, 7/10, 1/2] :=
  claim_C1 [9/10, 7/10, 1/2] (by simp)
    (by norm_num [List.pairwise_cons])

/-- C3: with thresholds 0 ≤ low < high ≤ 1, the response flags realize the
 three-way routing of the spec: auto-respond exactly when confidence ≥ high,
 review exactly when low ≤ confidence < high, escalate exactly when
 confidence < low; the lower bounds are inclusive and exactly one of the
 three cases holds. -/
theorem claim_C3 (c low high : ℝ) (h0 : 0 ≤ low) (hlh : low < high)
    (h1 : high ≤ 1) :
    (autoResponseFlag c high ↔ high ≤ c) ∧
    (needsReviewFlag c low high ↔ low ≤ c ∧ c < high) ∧
    (shouldEscalateFlag c low ↔ c < low) ∧
    (shouldEscalateFlag c low ∨ needsReviewFlag c low high ∨
      autoResponseFlag c high) ∧
    ¬ (shouldEscalateFlag c low ∧ autoResponseFlag c high) ∧
    ¬ (shouldEscalateFlag c low ∧ needsReviewFlag c low high) ∧
    ¬ (needsReviewFlag c low high ∧ autoResponseFlag c high) := by
  simp only [autoResponseFlag, needsReviewFlag, shouldEscalateFlag]
  refine ⟨by trivial, ?_, by trivial, ?_, ?_, ?_, ?_⟩
  · rw [not_lt, not_le]
  · rcases lt_or_le c low with h | h
    · exact Or.inl h
    · rcases lt_or_le c high with h2 | h2
      · exact Or.inr (Or.inl ⟨not_lt.mpr h, not_le.mpr h2⟩)
      · exact Or.inr (Or.inr h2)
  · rintro ⟨ha, hb⟩
    linarith
  · rintro ⟨ha, hb, hc⟩
    exact hb ha
  · rintro ⟨⟨ha, hb⟩, hc⟩
    exact hb hc

theorem claim_C3_witness :
    needsReviewFlag (0.6 : ℝ) 0.6 0.8 ∧ autoResponseFlag (0.8 : ℝ) 0.8 :=
  ⟨((claim_C3 0.6 0.6 0.8 (by norm_num) (by norm_num) (by norm_num)).2.1).mpr
      (by norm_num),
    ((claim_C3 0.8 0.6 0.8 (by norm_num) (by norm_num) (by norm_num)).1).mpr
      (by norm_num)⟩

/-- C9: the confidence of an empty result list is exactly 0.0, and the
 weighted-and-clamped combination step of the scorer is monotonically
 non-decreasing in the average-similarity factor when the top-result and
 consistency factors are held fixed. -/
theorem claim_C9 :
    RAGEngine.calculate_confidence [] = 0 ∧
    ∀ a₁ a₂ t c : ℝ, a₁ ≤ a₂ →
      RAGEngine.weightedConfidence a₁ t c ≤
        RAGEngine.weightedConfidence a₂ t c := by
  constructor
  · simp [RAGEngine.calculate_confidence]
  · intro a₁ a₂ t c h
    unfold RAGEngine.weightedConfidence
    have h6 : a₁ * 0.6 + t * 0.25 + c * 0.15 ≤
        a₂ * 0.6 + t * 0.25 + c * 0.15 := by nlinarith
    exact max_le_max le_rfl (min_le_min le_rfl h6)

theorem claim_C9_witness :
    RAGEngine.weightedConfidence 0 0 0 ≤ RAGEngine.weightedConfidence 1 0 0 :=
  claim_C9.2 0 1 0 0 (by norm_num)

/-- C2: a query whose retrieval step returns zero chunks yields the forced
 outcome: confidence exactly 0.0, empty source list, escalation on and
 auto-response off, whatever the question, the embedding, the generation
 outcome and the thresholds are. -/
theorem claim_C2 (question : String) (emb : List ℚ)
    (gen : Except String String) (low high : ℝ) :
    (RAGEngine.query question (Except.ok emb) (Except.ok []) gen low
      high).confidence = 0 ∧
    (RAGEngine.query question (Except.ok emb) (Except.ok []) gen low
      high).sources = [] ∧
    (RAGEngine.query question (Except.ok emb) (Except.ok []) gen low
      high).should_escalate ∧
    ¬ (RAGEngine.query question (Except.ok emb) (Except.ok []) gen low
      high).auto_response := by
  simp [RAGEngine.query, RAGEngine.similarity_search,
    RAGEngine.create_no_results_response]

/-- C6 counterexample: an overlap equal to the chunk size, which the claim
 says must be rejected at startup (overlap at least maxSize), is in fact
 accepted: the only validation performed anywhere, inside the external
 splitter constructor, rejects only an overlap strictly greater than the
 size, and the repository itself never compares the two values. -/
theorem claim_C6_counterexample :
    DocumentProcessor.documentProcessorInit 500 500 = Except.ok () ∧
    500 ≤ 500 :=
  ⟨rfl, le_refl 500⟩

/-- C6 amended: a configuration with overlap strictly greater than maxSize
 fails at startup (processor construction) and one with overlap at most
 maxSize is accepted; chunking empty input returns the empty sequence of
 chunks rather than an error, given that the external splitter emits no
 chunk for empty input. -/
theorem claim_C6_amended (chunk_size chunk_overlap : ℕ)
    (split_text : String → List String) (source_name document_type : String)
    (hempty : split_text "" = []) :
    (chunk_size < chunk_overlap →
      DocumentProcessor.documentProcessorInit chunk_size chunk_overlap =
        Except.error "Got a larger chunk overlap than chunk size") ∧
    (chunk_overlap ≤ chunk_size →
      DocumentProcessor.documentProcessorInit chunk_size chunk_overlap =
        Except.ok ()) ∧
    DocumentProcessor.process_text_content split_text "" source_name
      document_type = [] := by
  refine ⟨fun h => ?_, fun h => ?_, ?_⟩
  · simp [DocumentProcessor.documentProcessorInit,
      DocumentProcessor.textSplitterInit, h]
  · simp [DocumentProcessor.documentProcessorInit,
      DocumentProcessor.textSplitterInit, not_lt.mpr h]
  · simp [DocumentProcessor.process_text_content, hempty]

theorem claim_C6_witness :
    DocumentProcessor.process_text_content
      (fun s => if s = "" then [] else [s]) "" "manual_input" "text" = [] :=
  (claim_C6_amended 500 50 (fun s => if s = "" then [] else [s])
    "manual_input" "text" (by simp)).2.2

/-- C8 counterexample: add on the empty store changes the nearest-neighbour
 structure from absent to a freshly fitted one, so add does not leave the
 search structure stale for a later search to rebuild. -/
theorem claim_C8_counterexample :
    InMemoryVectorStore.add ⟨2, [], [], [], none⟩ [[1, 0]] ["t"] "m" =
      Except.ok ⟨2, ["t"], ["m"], [[1, 0]], some ⟨1, [[1, 0]]⟩⟩ ∧
    (InMemoryVectorStore.Store.mk 2 [] [] [] none).nn = none :=
  ⟨rfl, rfl⟩

/-- C8 amended: every successful add rebuilds the similarity structure
 eagerly, leaving it freshly fitted on exactly the stored vectors with
 n_neighbors = min(5, count); search never rebuilds it: on a store whose
 structure is absent, search returns the empty list no matter what vectors
 are stored. -/
theorem claim_C8_amended (s s2 : InMemoryVectorStore.Store)
    (vectors : List (List ℚ)) (texts : List String) (md : String)
    (h : InMemoryVectorStore.add s vectors texts md = Except.ok s2) :
    (s2.nn = if (s.vectors ++ vectors).length = 0 then none
      else some ⟨min 5 (s.vectors ++ vectors).length, s.vectors ++ vectors⟩) ∧
    s2.vectors = s.vectors ++ vectors ∧
    ∀ dist q k,
      InMemoryVectorStore.search dist { s with nn := none } q k = [] := by
  unfold InMemoryVectorStore.add at h
  split at h
  · exact absurd h (by simp)
  · split at h
    · exact absurd h (by simp)
    · rw [Except.ok.injEq] at h
      subst h
      refine ⟨?_, ?_, ?_⟩
      · unfold InMemoryVectorStore.reindex
        split <;> rfl
      · unfold InMemoryVectorStore.reindex
        split <;> rfl
      · intro dist q k
        rfl

theorem claim_C8_witness :
    (InMemoryVectorStore.Store.mk 2 ["t"] ["m"] [[1, 0]]
      (some ⟨1, [[1, 0]]⟩)).vectors = ([] : List (List ℚ)) ++ [[1, 0]] :=
  (claim_C8_amended ⟨2, [], [], [], none⟩
    ⟨2, ["t"], ["m"], [[1, 0]], some ⟨1, [[1, 0]]⟩⟩ [[1, 0]] ["t"] "m"
    rfl).2.1

theorem scoreDescBool_trans (a b c : InMemoryVectorStore.SearchItem)
    (h1 : InMemoryVectorStore.scoreDescBool a b = true)
    (h2 : InMemoryVectorStore.scoreDescBool b c = true) :
    InMemoryVectorStore.scoreDescBool a c = true := by
  simp [InMemoryVectorStore.scoreDescBool] at h1 h2 ⊢
  exact le_trans h2 h1

theorem scoreDescBool_total (a b : InMemoryVectorStore.SearchItem) :
    (InMemoryVectorStore.scoreDescBool a b ||
      InMemoryVectorStore.scoreDescBool b a) = true := by
  simp [InMemoryVectorStore.scoreDescBool]
  exact le_total b.score a.score

/-- C5: on any reachable store state and any requested count k at least 1,
 search returns exactly min(k, stored entries) results, ordered by score
 descending, and search on an empty store returns the empty list rather than
 an error. -/
theorem claim_C5 (dist : List ℚ → List ℚ → ℚ) (s : InMemoryVectorStore.Store)
    (q : List ℚ) (k : ℕ) (hwf : InMemoryVectorStore.Wf s) (hk : 1 ≤ k) :
    (InMemoryVectorStore.search dist s q k).length = min k s.texts.length ∧
    (InMemoryVectorStore.search dist s q k).Pairwise
      (fun a b => b.score ≤ a.score) ∧
    (s.texts = [] → InMemoryVectorStore.search dist s q k = []) := by
  obtain ⟨hlen, hnn⟩ := hwf
  cases hn : s.nn with
  | none =>
    rw [hn] at hnn
    have ht : s.texts.length = 0 := by rw [← hlen, hnn]; rfl
    refine ⟨?_, ?_, fun _ => ?_⟩
    · simp [InMemoryVectorStore.search, hn, ht]
    · simp [InMemoryVectorStore.search, hn]
    · simp [InMemoryVectorStore.search, hn]
  | some nnm =>
    rw [hn] at hnn
    obtain ⟨hfit, hne⟩ := hnn
    have hflen : nnm.fitted.length = s.texts.length := by rw [hfit, hlen]
    refine ⟨?_, ?_, fun ht => ?_⟩
    · simp only [InMemoryVectorStore.search, hn, InMemoryVectorStore.kneighbors]
      rw [List.length_mergeSort, List.length_map, List.length_take,
        List.length_mergeSort, List.length_map, List.enum_length, hflen,
        min_assoc, min_self]
    · simp only [InMemoryVectorStore.search, hn]
      have hs := List.sorted_mergeSort
        (fun a b c => scoreDescBool_trans a b c)
        (fun a b => scoreDescBool_total a b)
        ((InMemoryVectorStore.kneighbors dist nnm q
          (min k s.texts.length)).map (fun p =>
            ⟨s.texts.getD p.1 "", 1 - p.2, s.metadata.getD p.1 "", p.1⟩))
      exact hs.imp (fun hab => by
        simpa [InMemoryVectorStore.scoreDescBool] using hab)
    · exfalso
      rw [ht] at hlen
      exact hne (List.length_eq_zero.mp hlen)

theorem claim_C5_witness :
    (InMemoryVectorStore.search (fun _ _ => 0)
      ⟨2, ["t1", "t2"], ["m", "m"], [[1, 0], [0, 1]],
        some ⟨2, [[1, 0], [0, 1]]⟩⟩ [1, 0] 5).length = 2 :=
  ((claim_C5 (fun _ _ => 0)
    ⟨2, ["t1", "t2"], ["m", "m"], [[1, 0], [0, 1]],
      some ⟨2, [[1, 0], [0, 1]]⟩⟩ [1, 0] 5
    ⟨rfl, rfl, by simp⟩ (by norm_num)).1).trans (by decide)

/-- C7 counterexample: a query during which the generation collaborator
 raises does not return the degraded escalation outcome the claim promises.
 The raise is caught inside the generator and the apology fallback is
 substituted, while confidence, sources and routing are computed normally:
 with one 0.9-similarity result and thresholds 0.6 / 0.8 the outcome has the
 auto-response flag set, confidence 0.915 rather than 0.0, and no attached
 error field. -/
theorem claim_C7_counterexample :
    (RAGEngine.query "q" (Except.ok [1])
      (Except.ok [⟨"id1", "text", 9/10, ⟨"A", "faq", "c1"⟩⟩])
      (Except.error "boom") (6/10) (8/10)).auto_response ∧
    (RAGEngine.query "q" (Except.ok [1])
      (Except.ok [⟨"id1", "text", 9/10, ⟨"A", "faq", "c1"⟩⟩])
      (Except.error "boom") (6/10) (8/10)).confidence ≠ 0 ∧
    (RAGEngine.query "q" (Except.ok [1])
      (Except.ok [⟨"id1", "text", 9/10, ⟨"A", "faq", "c1"⟩⟩])
      (Except.error "boom") (6/10) (8/10)).error = none := by
  have hconf : RAGEngine.calculate_confidence [9/10] = 183/200 := by
    unfold RAGEngine.calculate_confidence RAGEngine.weightedConfidence
      RAGEngine.calculate_result_consistency
    rw [if_neg (by simp)]
    norm_num [listMean, min_def, max_def]
  have hr : round3R (183/200 : ℝ) = 183/200 := by
    unfold round3R roundHalfEvenR
    norm_num
  simp only [RAGEngine.query, RAGEngine.similarity_search]
  rw [if_neg (by simp)]
  simp only [List.map_cons, List.map_nil, hconf, List.length_cons]
  refine ⟨?_, ?_, trivial⟩
  · show RAGSupport.autoResponseFlag (183/200) (8/10)
    unfold autoResponseFlag
    norm_num
  · show round3R (183/200) ≠ 0
    rw [hr]
    norm_num

/-- C7 amended: only an embedding failure produces the degraded outcome with
 confidence 0.0, empty sources, escalation and an attached error field, and
 even that outcome further differs from the zero-results outcome in its
 answer text and message field; a search failure is swallowed inside the
 vector store and becomes exactly the zero-results outcome, with no error
 attached; a generation failure is swallowed inside the generator and
 changes only the answer text, never the confidence, sources or routing. -/
theorem claim_C7_amended :
    (∀ e searchRaw gen low high (question : String),
      RAGEngine.query question (Except.error e) searchRaw gen low high =
        RAGEngine.create_error_response e ∧
      (RAGEngine.create_error_response e).confidence = 0 ∧
      (RAGEngine.create_error_response e).sources = [] ∧
      (RAGEngine.create_error_response e).should_escalate ∧
      ¬ (RAGEngine.create_error_response e).auto_response ∧
      (RAGEngine.create_error_response e).error = some e ∧
      (RAGEngine.create_error_response e).response ≠
        RAGEngine.create_no_results_response.response ∧
      (RAGEngine.create_error_response e).message = none ∧
      RAGEngine.create_no_results_response.message ≠ none) ∧
    (∀ emb e gen low high (question : String),
      RAGEngine.query question (Except.ok emb) (Except.error e) gen low
        high = RAGEngine.create_no_results_response) ∧
    (∀ emb results err low high (question : String), results ≠ [] →
      RAGEngine.query question (Except.ok emb) (Except.ok results)
          (Except.error err) low high =
        { RAGEngine.query question (Except.ok emb) (Except.ok results)
            (Except.ok "response text") low high with
          response := RAGEngine.genFallbackText }) := by
  refine ⟨?_, ?_, ?_⟩
  · intro e searchRaw gen low high question
    refine ⟨?_, ?_, ?_, ?_, ?_, ?_, ?_, ?_, ?_⟩
    · rfl
    · rfl
    · rfl
    · trivial
    · exact fun h => h
    · rfl
    · intro h
      have hsame : RAGEngine.errorText = RAGEngine.noResultsText := h
      exact absurd hsame (by decide)
    · rfl
    · simp [RAGEngine.create_no_results_response]
  · intro emb e gen low high question
    rfl
  · intro emb results err low high question hne
    simp only [RAGEngine.query, RAGEngine.similarity_search]
    rw [if_neg hne, if_neg hne]
    rfl

theorem claim_C7_witness :
    RAGEngine.query "q" (Except.ok [1])
        (Except.ok [⟨"id", "t", 1/2, ⟨"A", "faq", "c"⟩⟩])
        (Except.error "x") (6/10) (8/10) =
      { RAGEngine.query "q" (Except.ok [1])
          (Except.ok [⟨"id", "t", 1/2, ⟨"A", "faq", "c"⟩⟩])
          (Except.ok "response text") (6/10) (8/10) with
        response := RAGEngine.genFallbackText } :=
  claim_C7_amended.2.2 [1] [⟨"id", "t", 1/2, ⟨"A", "faq", "c"⟩⟩] "x"
    (6/10) (8/10) "q" (by simp)

theorem beforeLastSpace_subset (l : List Char) :
    ∀ c ∈ Helpers.beforeLastSpace l, c ∈ l := by
  intro c hc
  unfold Helpers.beforeLastSpace at hc
  split at hc
  · rw [List.mem_reverse] at hc
    have h1 : c ∈ l.reverse.dropWhile (fun c => !(c == ' ')) :=
      (List.tail_sublist _).subset hc
    have h2 : c ∈ l.reverse :=
      (List.dropWhile_sublist _).subset h1
    exact List.mem_reverse.mp h2
  · exact hc

theorem beforeLastSpace_length_le (l : List Char) :
    (Helpers.beforeLastSpace l).length ≤ l.length := by
  unfold Helpers.beforeLastSpace
  split
  · rw [List.length_reverse]
    calc ((l.reverse.dropWhile (fun c => !(c == ' '))).tail).length
        ≤ (l.reverse.dropWhile (fun c => !(c == ' '))).length :=
          (List.tail_sublist _).length_le
      _ ≤ l.reverse.length := (List.dropWhile_sublist _).length_le
      _ = l.length := List.length_reverse l
  · exact le_refl _

theorem sourceDescBool_trans (a b c : SourceInfo)
    (h1 : Helpers.sourceDescBool a b = true)
    (h2 : Helpers.sourceDescBool b c = true) :
    Helpers.sourceDescBool a c = true := by
  simp [Helpers.sourceDescBool] at h1 h2 ⊢
  exact le_trans h2 h1

theorem sourceDescBool_total (a b : SourceInfo) :
    (Helpers.sourceDescBool a b || Helpers.sourceDescBool b a) = true := by
  simp [Helpers.sourceDescBool]
  exact le_total b.relevance_score a.relevance_score

theorem formatSourcesLoop_source_notin_seen (all : List SearchResult) :
    ∀ l seen, ∀ e ∈ Helpers.formatSourcesLoop all l seen, e.source ∉ seen := by
  intro l
  induction l with
  | nil =>
    intro seen e he
    simp [Helpers.formatSourcesLoop] at he
  | cons r rest ih =>
    intro seen e he
    simp only [Helpers.formatSourcesLoop] at he
    by_cases hmem : r.metadata.source ∈ seen
    · rw [if_pos hmem] at he
      exact ih seen e he
    · rw [if_neg hmem] at he
      rcases List.mem_cons.mp he with heq | hrest
      · rw [heq]
        exact hmem
      · have h2 := ih (r.metadata.source :: seen) e hrest
        exact fun hs => h2 (List.mem_cons_of_mem _ hs)

theorem formatSourcesLoop_sources_nodup (all : List SearchResult) :
    ∀ l seen,
      ((Helpers.formatSourcesLoop all l seen).map (fun e => e.source)).Nodup := by
  intro l
  induction l with
  | nil =>
    intro seen
    simp [Helpers.formatSourcesLoop]
  | cons r rest ih =>
    intro seen
    simp only [Helpers.formatSourcesLoop]
    by_cases hmem : r.metadata.source ∈ seen
    · rw [if_pos hmem]
      exact ih seen
    · rw [if_neg hmem, List.map_cons, List.nodup_cons]
      refine ⟨?_, ih _⟩
      intro hin
      rw [List.mem_map] at hin
      obtain ⟨e, he, hes⟩ := hin
      have hnot := formatSourcesLoop_source_notin_seen all rest
        (r.metadata.source :: seen) e he
      apply hnot
      rw [hes]
      exact List.mem_cons_self _ _

theorem formatSourcesLoop_sources_mem (all : List SearchResult) :
    ∀ l seen s,
      s ∈ (Helpers.formatSourcesLoop all l seen).map (fun e => e.source) ↔
        (s ∈ l.map (fun r => r.metadata.source) ∧ s ∉ seen) := by
  intro l
  induction l with
  | nil =>
    intro seen s
    simp [Helpers.formatSourcesLoop]
  | cons r rest ih =>
    intro seen s
    simp only [Helpers.formatSourcesLoop]
    by_cases hmem : r.metadata.source ∈ seen
    · rw [if_pos hmem, ih, List.map_cons, List.mem_cons]
      constructor
      · rintro ⟨h1, h2⟩
        exact ⟨Or.inr h1, h2⟩
      · rintro ⟨h1 | h1, h2⟩
        · rw [h1] at h2
          exact absurd hmem h2
        · exact ⟨h1, h2⟩
    · rw [if_neg hmem]
      simp only [List.map_cons, List.mem_cons, ih]
      constructor
      · rintro (h1 | ⟨h1, h2⟩)
        · refine ⟨Or.inl h1, ?_⟩
          subst h1
          exact hmem
        · exact ⟨Or.inr h1, fun hs => h2 (Or.inr hs)⟩
      · rintro ⟨h1 | h1, h2⟩
        · exact Or.inl h1
        · by_cases hsr : s = r.metadata.source
          · exact Or.inl hsr
          · exact Or.inr ⟨h1, fun hs => hs.elim hsr h2⟩

theorem chunkCountOf_eq_filter_length :
    ∀ (all : List SearchResult) (r : SearchResult), all.Nodup → r ∈ all →
      Helpers.chunkCountOf all r =
        (all.filter
          (fun o => decide (o.metadata.source = r.metadata.source))).length := by
  intro all r
  induction all with
  | nil =>
    intro _ h
    exact absurd h (List.not_mem_nil r)
  | cons x xs ih =>
    intro hnd hmem
    rw [List.nodup_cons] at hnd
    rw [← List.countP_eq_length_filter]
    unfold Helpers.chunkCountOf
    rcases List.mem_cons.mp hmem with heq | hxs
    · subst heq
      rw [List.countP_cons, List.countP_cons]
      have h3 : xs.countP (fun o => decide (o.metadata.source =
          r.metadata.source ∧ o ≠ r)) =
          xs.countP (fun o => decide (o.metadata.source =
            r.metadata.source)) := by
        apply List.countP_congr
        intro a ha
        have hne : a ≠ r := by
          intro h
          rw [h] at ha
          exact hnd.1 ha
        simp [hne]
      have h1 : decide (r.metadata.source = r.metadata.source ∧ r ≠ r) =
          false := by simp
      have h2 : decide (r.metadata.source = r.metadata.source) = true := by
        simp
      rw [h1, h2, h3, if_neg (by simp), if_pos rfl]
      omega
    · have hx : x ≠ r := by
        intro h
        subst h
        exact hnd.1 hxs
      rw [List.countP_cons, List.countP_cons]
      have h1 : decide (x.metadata.source = r.metadata.source ∧ x ≠ r) =
          decide (x.metadata.source = r.metadata.source) := by
        simp [hx]
      rw [h1]
      have hih := ih hnd.2 hxs
      rw [← List.countP_eq_length_filter] at hih
      unfold Helpers.chunkCountOf at hih
      omega

theorem formatSourcesLoop_entries (all : List SearchResult)
    (hs : all.Pairwise (fun a b => b.similarity ≤ a.similarity))
    (hnd : all.Nodup) :
    ∀ l seen, (∃ pre, all = pre ++ l ∧
        ∀ a ∈ pre, a.metadata.source ∈ seen) →
      ∀ e ∈ Helpers.formatSourcesLoop all l seen,
        e.chunk_count = (all.filter
          (fun o => decide (o.metadata.source = e.source))).length ∧
        ∃ r, r ∈ all ∧ r.metadata.source = e.source ∧
          e.relevance_score = round3 r.similarity ∧
          ∀ r2 ∈ all, r2.metadata.source = e.source →
            r2.similarity ≤ r.similarity := by
  intro l
  induction l with
  | nil =>
    intro seen _ e he
    simp [Helpers.formatSourcesLoop] at he
  | cons r rest ih =>
    rintro seen ⟨pre, happ, hpre⟩ e he
    simp only [Helpers.formatSourcesLoop] at he
    by_cases hmem : r.metadata.source ∈ seen
    · rw [if_pos hmem] at he
      refine ih seen ⟨pre ++ [r], ?_, ?_⟩ e he
      · rw [happ, List.append_assoc]
        rfl
      · intro a ha
        rcases List.mem_append.mp ha with h1 | h1
        · exact hpre a h1
        · rw [List.mem_singleton.mp h1]
          exact hmem
    · rw [if_neg hmem] at he
      rcases List.mem_cons.mp he with heq | hrest
      · have hrmem : r ∈ all := by
          rw [happ]
          exact List.mem_append_right pre (List.mem_cons_self r rest)
        subst heq
        refine ⟨?_, r, hrmem, rfl, rfl, ?_⟩
        · exact chunkCountOf_eq_filter_length all r hnd hrmem
        · intro r2 hr2 hsrc
          rw [happ, List.mem_append, List.mem_cons] at hr2
          rcases hr2 with h1 | h1 | h1
          · exfalso
            apply hmem
            have h4 : r2.metadata.source ∈ seen := hpre r2 h1
            rw [hsrc] at h4
            exact h4
          · rw [h1]
          · have hpw := (List.pairwise_append.mp (happ ▸ hs)).2.1
            exact (List.pairwise_cons.mp hpw).1 r2 h1
      · refine ih (r.metadata.source :: seen) ⟨pre ++ [r], ?_, ?_⟩ e hrest
        · rw [happ, List.append_assoc]
          rfl
        · intro a ha
          rcases List.mem_append.mp ha with h1 | h1
          · exact List.mem_cons_of_mem _ (hpre a h1)
          · rw [List.mem_singleton.mp h1]
            exact List.mem_cons_self _ _

/-- C4 counterexample: the claim promises relevanceScore equal to the highest
 similarity seen for the source, but format_sources rounds the similarity to
 three decimal places: a single result with similarity 0.8765 yields an
 attribution entry with relevanceScore 0.876, not 0.8765. -/
theorem claim_C4_counterexample :
    Helpers.format_sources [⟨"id1", "t", 8765/10000, ⟨"A", "faq", "c1"⟩⟩] =
      [⟨"A", "faq", 876/1000, 1⟩] ∧ (876/1000 : ℚ) ≠ 8765/10000 := by
  constructor
  · norm_num [Helpers.format_sources, Helpers.formatSourcesLoop,
      Helpers.chunkCountOf, round3, roundHalfEven, List.countP_cons,
      List.countP_nil, List.mergeSort]
  · norm_num

/-- C4 amended: for every list of pairwise-distinct search results ordered by
 similarity descending, format_sources yields exactly one entry per unique
 source (no duplicate sources, and a source appears in the output exactly
 when it appears in the input), each entry carrying as relevanceScore the
 highest similarity seen for its source rounded to three decimal places and
 as chunkCount the number of retrieved chunks from that source, with entries
 ordered by relevanceScore descending.  Pairwise distinctness is needed
 because the chunk-counting loop compares results by dict equality;
 e.g. results A:0.9, A:0.7, B:0.5 yield exactly A (0.9, 2 chunks) then
 B (0.5, 1 chunk). -/
theorem claim_C4_amended (results : List SearchResult)
    (hsorted : results.Pairwise (fun a b => b.similarity ≤ a.similarity))
    (hnodup : results.Nodup) :
    ((Helpers.format_sources results).map (fun e => e.source)).Nodup ∧
    (∀ s, s ∈ (Helpers.format_sources results).map (fun e => e.source) ↔
      s ∈ results.map (fun r => r.metadata.source)) ∧
    (∀ e ∈ Helpers.format_sources results,
      e.chunk_count = (results.filter
        (fun r => decide (r.metadata.source = e.source))).length ∧
      ∃ r, r ∈ results ∧ r.metadata.source = e.source ∧
        e.relevance_score = round3 r.similarity ∧
        ∀ r2 ∈ results, r2.metadata.source = e.source →
          r2.similarity ≤ r.similarity) ∧
    (Helpers.format_sources results).Pairwise
      (fun a b => b.relevance_score ≤ a.relevance_score) := by
  have hperm := List.mergeSort_perm
    (Helpers.formatSourcesLoop results results []) Helpers.sourceDescBool
  refine ⟨?_, ?_, ?_, ?_⟩
  · exact ((hperm.map (fun e => e.source)).nodup_iff).mpr
      (formatSourcesLoop_sources_nodup results results [])
  · intro s
    unfold Helpers.format_sources
    rw [(hperm.map (fun e => e.source)).mem_iff,
      formatSourcesLoop_sources_mem]
    simp
  · intro e he
    have he2 : e ∈ Helpers.formatSourcesLoop results results [] :=
      List.mem_mergeSort.mp he
    exact formatSourcesLoop_entries results hsorted hnodup results []
      ⟨[], rfl, by simp⟩ e he2
  · have hsm := List.sorted_mergeSort
      (fun a b c => sourceDescBool_trans a b c)
      (fun a b => sourceDescBool_total a b)
      (Helpers.formatSourcesLoop results results [])
    exact hsm.imp (fun hab => by
      simpa [Helpers.sourceDescBool] using hab)

theorem claim_C4_witness :
    Helpers.format_sources
      [⟨"1", "tA1", 9/10, ⟨"A", "faq", "cA1"⟩⟩,
       ⟨"2", "tA2", 7/10, ⟨"A", "faq", "cA2"⟩⟩,
       ⟨"3", "tB", 1/2, ⟨"B", "policy", "cB"⟩⟩] =
      [⟨"A", "faq", 9/10, 2⟩, ⟨"B", "policy", 1/2, 1⟩] ∧
    ("A" ∈ (Helpers.format_sources
      [⟨"1", "tA1", 9/10, ⟨"A", "faq", "cA1"⟩⟩,
       ⟨"2", "tA2", 7/10, ⟨"A", "faq", "cA2"⟩⟩,
       ⟨"3", "tB", 1/2, ⟨"B", "policy", "cB"⟩⟩]).map (fun e => e.source) ↔
      "A" ∈ ([⟨"1", "tA1", 9/10, ⟨"A", "faq", "cA1"⟩⟩,
       ⟨"2", "tA2", 7/10, ⟨"A", "faq", "cA2"⟩⟩,
       ⟨"3", "tB", 1/2, ⟨"B", "policy", "cB"⟩⟩] :
         List SearchResult).map (fun r => r.metadata.source)) := by
  constructor
  · norm_num [Helpers.format_sources, Helpers.formatSourcesLoop,
      Helpers.chunkCountOf, round3, roundHalfEven, List.countP_cons,
      List.countP_nil, List.mergeSort, List.merge, Helpers.sourceDescBool,
      (show ("B" : String) ≠ "A" by decide),
      (show ("A" : String) ≠ "B" by decide)]
  · exact (claim_C4_amended
      [⟨"1", "tA1", 9/10, ⟨"A", "faq", "cA1"⟩⟩,
       ⟨"2", "tA2", 7/10, ⟨"A", "faq", "cA2"⟩⟩,
       ⟨"3", "tB", 1/2, ⟨"B", "policy", "cB"⟩⟩]
      (by norm_num [List.pairwise_cons]) (by decide)).2.1 "A"

/-- C10: sanitize_query always returns a string containing none of the
 harmful characters, of length at most 503 (a 500-character cut plus the
 appended three-dot ellipsis), and empty input yields the empty string. -/
theorem claim_C10 (query : List Char) :
    (Helpers.sanitize_query query).all
      (fun c => !(Helpers.harmfulChar c)) = true ∧
    (Helpers.sanitize_query query).length ≤ 503 ∧
    Helpers.sanitize_query [] = [] := by
  have hclean : ∀ c ∈ Helpers.cleanedQuery query,
      (!(Helpers.harmfulChar c)) = true := by
    intro c hc
    unfold Helpers.cleanedQuery at hc
    exact (List.mem_filter.mp hc).2
  refine ⟨?_, ?_, rfl⟩
  · unfold Helpers.sanitize_query
    split
    · rfl
    · split
      · rw [List.all_eq_true]
        intro c hc
        rw [List.mem_append] at hc
        rcases hc with hc | hc
        · exact hclean c
            (List.take_subset 500 _ (beforeLastSpace_subset _ c hc))
        · have hdot : c = '.' := by simpa using hc
          rw [hdot]
          decide
      · rw [List.all_eq_true]
        exact hclean
  · unfold Helpers.sanitize_query
    split
    · simp
    · split
      · rw [List.length_append]
        have h1 := beforeLastSpace_length_le ((Helpers.cleanedQuery query).take 500)
        have h2 : ((Helpers.cleanedQuery query).take 500).length ≤ 500 := by
          rw [List.length_take]; omega
        simp only [List.length_cons, List.length_nil]
        omega
      · rename_i hlen
        omega

end RAGSupport
